import Mathlib

/-!
Verification of the marketplace core (MarketManager, MessageEncoder, Server
registration/handlers) of the Distributed-Systems repository, as a shallow
embedding in Lean.  Python dicts are embedded as association lists that keep
insertion order (first-match lookup, as Python dicts have unique keys);
Python floats are embedded as rationals (exact field arithmetic); exceptions
become an explicit error result; blocking forever on the manager's
non-reentrant `threading.Lock` (acquiring it while the same thread already
holds it) becomes an explicit `deadlock` result.
-/

namespace Market

/-- Embeds `src/core/Market/item_type.py`: the `ItemType` enum. -/
inductive ItemType
  | FLOWER
  | SUGAR
  | POTATO
  | OIL
deriving DecidableEq, Repr

/-- Wire string of each `ItemType` (the enum member's `.value`). -/
def ItemType.value : ItemType → String
  | .FLOWER => "flower"
  | .SUGAR => "sugar"
  | .POTATO => "potato"
  | .OIL => "oil"

/-- Iteration order of `for item_type in ItemType:` — Python enums iterate in
definition order. -/
def ItemType.all : List ItemType := [.FLOWER, .SUGAR, .POTATO, .OIL]

/-- Embeds the `ItemStock` dataclass of `src/core/Market/item_stock.py`. -/
structure ItemStock where
  item_type : ItemType
  quantity : ℚ
  max_quantity : ℚ
deriving DecidableEq, Repr

/-- Embeds `MarketItem` of `src/core/Market/market_item.py` (the fields the
manager logic reads and writes; the `_lock` and `_timer` handles carry no
market state). -/
structure MarketItem where
  item_id : String
  item_type : ItemType
  quantity : ℚ
  seller_id : String
  sale_start_time : ℚ
  max_sale_duration : ℚ := 60
deriving DecidableEq, Repr

/-- Embeds `MarketItem.is_expired`: `time.time() - self.sale_start_time >
self.max_sale_duration`, at clock value `now`. -/
def MarketItem.is_expired (it : MarketItem) (now : ℚ) : Bool :=
  now - it.sale_start_time > it.max_sale_duration

/-- The mutable state of a `MarketManager` (`active_items`, `seller_stocks`,
and which item ids have a pending rotation timer).  Dicts are association
lists in insertion order. -/
structure MarketState where
  active_items : List (String × MarketItem)
  seller_stocks : List (String × List (ItemType × ItemStock))
  item_rotation_timers : List String
deriving DecidableEq, Repr

/-- The Python exceptions the embedded manager methods can raise. -/
inductive PyError
  | runtimeSellerNotFound
  | runtimeAlreadyActive
  | valueItemNotFound
  | valueAmountNotPositive
  | nameErrorThreading
  | keyError
deriving DecidableEq, Repr

/-- Result of one manager method call: normal return with the new state,
an exception propagating with the state at that point, or blocking forever
on the manager's non-reentrant lock (state frozen at the hang). -/
inductive MResult (α : Type)
  | ok : α → MarketState → MResult α
  | error : PyError → MarketState → MResult α
  | deadlock : MarketState → MResult α
deriving DecidableEq, Repr

/-- The market state a call leaves behind (at return, raise, or hang). -/
def MResult.state {α : Type} : MResult α → MarketState
  | .ok _ s => s
  | .error _ s => s
  | .deadlock s => s

/-- Dict lookup `d[k]` / `k in d`: the first value stored under the key
(Python dict keys are unique, so first-match is the dict's association). -/
def lookupA {κ α : Type} [DecidableEq κ] : List (κ × α) → κ → Option α
  | [], _ => none
  | p :: l, k => if p.1 = k then some p.2 else lookupA l k

/-- Replacing the value stored under a key (`d[k] = v` for a present key
keeps the key's position; Python dict keys are unique). -/
def updateAssoc {κ α : Type} [DecidableEq κ] (l : List (κ × α)) (k : κ) (v : α) :
    List (κ × α) :=
  l.map fun p => if p.1 = k then (k, v) else p

/-- Deleting a key (`del d[k]`). -/
def removeAssoc {κ α : Type} [DecidableEq κ] (l : List (κ × α)) (k : κ) :
    List (κ × α) :=
  l.filter fun p => p.1 != k

/-- Embeds `MarketManager.try_purchase`: `ValueError` if the id is not an
active sale, `ValueError` if the amount is not positive, decrement and
return `True` when `item.quantity >= quantity`, else return `False`. -/
def try_purchase (s : MarketState) (item_id : String) (quantity : ℚ) :
    MResult Bool :=
  match lookupA s.active_items item_id with
  | none => .error .valueItemNotFound s
  | some item =>
    if quantity ≤ 0 then .error .valueAmountNotPositive s
    else if quantity ≤ item.quantity then
      .ok true { s with
        active_items := updateAssoc s.active_items item_id
          { item with quantity := item.quantity - quantity } }
    else .ok false s

/-- Embeds `MarketManager.get_active_items`: `list(self.active_items.values())`
— a snapshot of the dict's values, with no expiry filtering. -/
def get_active_items (s : MarketState) : List MarketItem :=
  s.active_items.map Prod.snd

/-- A sequence of `try_purchase` calls against one item id, returning the
final state and the total quantity of the calls that returned `True`
(an exception leaves the state unchanged and accepts nothing). -/
def purchase_seq (s : MarketState) (item_id : String) :
    List ℚ → MarketState × ℚ
  | [] => (s, 0)
  | q :: qs =>
    match try_purchase s item_id q with
    | .ok true s' =>
      let rest := purchase_seq s' item_id qs
      (rest.1, q + rest.2)
    | .ok false s' =>
      let rest := purchase_seq s' item_id qs
      (rest.1, rest.2)
    | .error _ s' =>
      let rest := purchase_seq s' item_id qs
      (rest.1, rest.2)
    | .deadlock s' => (s', 0)

/-- The items of `self.active_items.values()` whose `seller_id` equals
`seller_id` (the existing-sale check inside `start_sale`). -/
def activeItemsOfSeller (s : MarketState) (seller_id : String) : List MarketItem :=
  (s.active_items.map Prod.snd).filter fun it => it.seller_id = seller_id

/-- Embeds `MarketManager.start_sale`.  After the seller-exists and
no-existing-sale checks it builds the new `MarketItem` and calls
`self._start_sale_timer(new_item)` BEFORE inserting into `active_items`.
The class body defines `_start_sale_timer` twice; the later definition
(lines 225-243 of `market_manager.py`) shadows the earlier one, and its
body evaluates `threading.Timer(...)` although the module only does
`from threading import Lock, Timer` and never binds the name `threading` —
so the call raises `NameError`, the new item (and the clock value used for
its id and start time) is discarded, and the state is unchanged. -/
def start_sale (s : MarketState) (seller_id : String) (_item_type : ItemType)
    (_quantity : ℚ) : MResult MarketItem :=
  if (lookupA s.seller_stocks seller_id).isNone then
    .error .runtimeSellerNotFound s
  else if activeItemsOfSeller s seller_id ≠ [] then
    .error .runtimeAlreadyActive s
  else
    .error .nameErrorThreading s

/-- The `for item_type in ItemType:` loop of `MarketManager._start_next_item`,
executed while `end_sale` still holds the manager lock: `stocks[item_type]`
raises `KeyError` when a type is missing; when `stock.quantity > 0` it calls
`self.start_sale(...)`, whose `with self._lock:` blocks forever on the
non-reentrant `threading.Lock` already held by this thread (the surrounding
`try` cannot catch a block, only exceptions). -/
def start_next_item_loop (s : MarketState) (stocks : List (ItemType × ItemStock)) :
    List ItemType → MResult (Option MarketItem)
  | [] => .ok none s
  | t :: ts =>
    match lookupA stocks t with
    | none => .error .keyError s
    | some stock =>
      if 0 < stock.quantity then .deadlock s
      else start_next_item_loop s stocks ts

/-- Embeds `MarketManager._start_next_item` (called from `end_sale` with the
manager lock held). -/
def start_next_item (s : MarketState) (seller_id : String) :
    MResult (Option MarketItem) :=
  match lookupA s.seller_stocks seller_id with
  | none => .ok none s
  | some stocks => start_next_item_loop s stocks ItemType.all

/-- Embeds `MarketManager.end_sale`: `None` if the id is not active;
otherwise restore the unsold quantity to the seller's stock (a `KeyError`
propagates if `seller_stocks[item.seller_id][item.item_type]` is missing),
delete the item, cancel and drop its rotation timer, and — when
`auto_rotate` (the default `True`) — call `_start_next_item`. -/
def end_sale (s : MarketState) (item_id : String) (auto_rotate : Bool) :
    MResult (Option MarketItem) :=
  match lookupA s.active_items item_id with
  | none => .ok none s
  | some item =>
    let restored : Option MarketState :=
      if 0 < item.quantity then
        match (lookupA s.seller_stocks item.seller_id).bind
            (fun stocks => lookupA stocks item.item_type) with
        | none => none
        | some stock =>
          some { s with
            seller_stocks :=
              updateAssoc s.seller_stocks item.seller_id
                (updateAssoc ((lookupA s.seller_stocks item.seller_id).getD [])
                  item.item_type
                  { stock with quantity := stock.quantity + item.quantity }) }
      else some s
    match restored with
    | none => .error .keyError s
    | some s1 =>
      let s2 : MarketState :=
        { s1 with
          active_items := removeAssoc s1.active_items item_id,
          item_rotation_timers :=
            s1.item_rotation_timers.filter fun i => i != item_id }
      if auto_rotate then start_next_item s2 item.seller_id
      else .ok none s2

/-- Embeds `MarketManager.get_seller_stock`: `RuntimeError` if the seller is
unknown, else the map `item_type.value -> stock.quantity`. -/
def get_seller_stock (s : MarketState) (seller_id : String) :
    Except PyError (List (String × ℚ)) :=
  match lookupA s.seller_stocks seller_id with
  | none => .error .runtimeSellerNotFound
  | some stocks => .ok (stocks.map fun p => (p.1.value, p.2.quantity))

/-- Embeds `MarketManager.initialize_seller_stock`: (re)sets the seller's
entry to a full dict of stocks with `quantity = max_quantity =
initial_quantity`. -/
def initialize_seller_stock (s : MarketState) (seller_id : String)
    (initial_quantity : ℚ) : MarketState :=
  let fresh := ItemType.all.map fun t =>
    (t, ItemStock.mk t initial_quantity initial_quantity)
  { s with
    seller_stocks :=
      if (lookupA s.seller_stocks seller_id).isSome then
        updateAssoc s.seller_stocks seller_id fresh
      else s.seller_stocks ++ [(seller_id, fresh)] }

/-- The quantity a seller holds in reserve for an item type (`0` when the
seller or the type has no stock entry). -/
def stockQty (s : MarketState) (seller : String) (t : ItemType) : ℚ :=
  match (lookupA s.seller_stocks seller).bind (fun stocks => lookupA stocks t) with
  | some st => st.quantity
  | none => 0

/-- Total quantity offered in active sales by `seller` for item type `t`. -/
def sumSellerType (items : List (String × MarketItem)) (seller : String)
    (t : ItemType) : ℚ :=
  (((items.map Prod.snd).filter fun it =>
      it.seller_id = seller ∧ it.item_type = t).map
    (fun it => it.quantity)).sum

/-- The conserved quantity of the spec's global invariant: reserve stock plus
the seller's active-sale quantities of that type. -/
def conserved (s : MarketState) (seller : String) (t : ItemType) : ℚ :=
  stockQty s seller t + sumSellerType s.active_items seller t

/-- Contribution of one item to `sumSellerType`. -/
def itemContribution (it : MarketItem) (seller : String) (t : ItemType) : ℚ :=
  if it.seller_id = seller ∧ it.item_type = t then it.quantity else 0

/-- Well-formed manager state: dict keys are unique at every level (Python
dicts cannot hold a key twice). -/
def WF (s : MarketState) : Prop :=
  (s.active_items.map Prod.fst).Nodup ∧
  (s.seller_stocks.map Prod.fst).Nodup ∧
  ∀ p ∈ s.seller_stocks, (p.2.map Prod.fst).Nodup

instance (s : MarketState) : Decidable (WF s) := by
  unfold WF; infer_instance

end Market

namespace Wire

/-- Embeds the `MessageType` enum of `src/core/Server/message_type.py`. -/
inductive MessageType
  | LIST_ITEMS
  | ITEM_UPDATE
  | BUY_REQUEST
  | BUY_RESPONSE
  | STOCK_UPDATE
  | SALE_START
  | SALE_END
  | ERROR
  | ACK
  | REGISTER
deriving DecidableEq, Repr

/-- The wire string of each `MessageType` member (its `.value`). -/
def MessageType.value : MessageType → String
  | .LIST_ITEMS => "list_items"
  | .ITEM_UPDATE => "item_update"
  | .BUY_REQUEST => "buy_request"
  | .BUY_RESPONSE => "buy_response"
  | .STOCK_UPDATE => "stock_update"
  | .SALE_START => "sale_start"
  | .SALE_END => "sale_end"
  | .ERROR => "error"
  | .ACK => "acknowledgment"
  | .REGISTER => "register"

/-- Enum lookup by value, `MessageType(wire_string)`: the member whose
`.value` equals the string, else a `ValueError` (`none`). -/
def MessageType.ofValue (v : String) : Option MessageType :=
  if v = "list_items" then some .LIST_ITEMS
  else if v = "item_update" then some .ITEM_UPDATE
  else if v = "buy_request" then some .BUY_REQUEST
  else if v = "buy_response" then some .BUY_RESPONSE
  else if v = "stock_update" then some .STOCK_UPDATE
  else if v = "sale_start" then some .SALE_START
  else if v = "sale_end" then some .SALE_END
  else if v = "error" then some .ERROR
  else if v = "acknowledgment" then some .ACK
  else if v = "register" then some .REGISTER
  else none

/-- The JSON value universe: what `json.dumps` accepts and `json.loads`
produces for the message payloads (numbers as exact rationals). -/
inductive JsonValue
  | null
  | bool (b : Bool)
  | num (q : ℚ)
  | str (s : String)
  | arr (elems : List JsonValue)
  | obj (fields : List (String × JsonValue))

/-- Embeds the `Message` dataclass of `src/core/Server/message.py`; the
`data: dict[str, Any]` payload is a JSON object in insertion order. -/
structure Message where
  type : MessageType
  data : List (String × JsonValue)
  sender_id : String

/-- Embeds `MessageEncoder.serialize`: the UTF-8 JSON text
`{"type": message.type.value, "data": message.data, "sender_id":
message.sender_id}`, represented by its JSON tree (`json.loads ∘ json.dumps`
is the identity on string-keyed JSON trees, so the byte layer is the
identity on this representation). -/
def serialize (message : Message) : JsonValue :=
  .obj [("type", .str message.type.value),
        ("data", .obj message.data),
        ("sender_id", .str message.sender_id)]

/-- Embeds `MessageEncoder.deserialize`: parse the JSON tree, read
`msg_dict["type"]`, `msg_dict["data"]`, `msg_dict["sender_id"]`, rebuild the
`Message` with `MessageType(msg_dict["type"])`; any failure (missing key,
unknown wire string, payload of the wrong shape for the `Message` fields)
raises `ValueError`. -/
def deserialize (data : JsonValue) : Except String Message :=
  match data with
  | .obj fields =>
    match Market.lookupA fields "type", Market.lookupA fields "data", Market.lookupA fields "sender_id" with
    | some (.str tv), some (.obj d), some (.str sid) =>
      match MessageType.ofValue tv with
      | some t => .ok (Message.mk t d sid)
      | none => .error "Failed to deserialize message"
    | _, _, _ => .error "Failed to deserialize message"
  | _ => .error "Failed to deserialize message"

end Wire

namespace Server

/-- Modelled from the spec: `src/core/Server/client_type.py` is imported by
`server.py` and both clients but is absent from the sources; the spec fixes
the roles as `BUYER | SELLER` with wire strings `"buyer"` / `"seller"`
(the `client_type` field of `REGISTER` and the role prefix of node ids). -/
inductive ClientType
  | BUYER
  | SELLER
deriving DecidableEq, Repr

/-- Wire string of each role (`ClientType.value`). -/
def ClientType.value : ClientType → String
  | .BUYER => "buyer"
  | .SELLER => "seller"

/-- Enum lookup by value, `ClientType(string)`: `ValueError` (`none`) for
anything but the two role strings. -/
def ClientType.ofValue (v : String) : Option ClientType :=
  if v = "buyer" then some .BUYER
  else if v = "seller" then some .SELLER
  else none

/-- The server registry state `register_client` reads and writes:
`next_node_id` and the `clients` dict (`node_id -> client_type`; the
socket/address/state fields of `ClientInfo` carry no registry logic). -/
structure RegState where
  next_node_id : ℕ
  clients : List (String × ClientType)
deriving DecidableEq, Repr

/-- The node id `f"{client_type.value}_{self.next_node_id}"`. -/
def nodeId (ct : ClientType) (n : ℕ) : String :=
  ct.value ++ "_" ++ Nat.repr n

/-- Decimal value of a digit string; the left inverse of `Nat.repr` used to
prove node ids distinct. -/
def digitsVal (l : List Char) : ℕ :=
  l.foldl (fun a c => 10 * a + (c.toNat - 48)) 0

/-- Embeds `Server.register_client`: allocate the node id from the current
counter, increment the counter, store the client record. -/
def register_client (st : RegState) (ct : ClientType) : String × RegState :=
  let node_id := nodeId ct st.next_node_id
  (node_id, RegState.mk (st.next_node_id + 1) (st.clients ++ [(node_id, ct)]))

/-- Embeds `Server.remove_client`: delete the record; the node-id counter is
untouched, so ids are never handed out again. -/
def remove_client (st : RegState) (node_id : String) : RegState :=
  RegState.mk st.next_node_id (st.clients.filter fun p => p.1 != node_id)

/-- Outcome of `handle_client`'s handling of a connection's first message:
either the connection is torn down with no reply ever sent (the
`raise ValueError` for a non-REGISTER first message, a missing or non-string
`client_type` key, or an unknown role string — the `except` block only logs
and the `finally` block closes the socket), or registration succeeds and
exactly one `ACK {node_id}` is sent back. -/
inductive FirstMessageOutcome
  | closedNoReply
  | ackSent (node_id : String) (st : RegState)
deriving DecidableEq, Repr

/-- Embeds the registration step of `Server.handle_client` (the
`if not registration_complete` branch) applied to the first decoded
message. -/
def handle_first_message (st : RegState) (msg : Wire.Message) :
    FirstMessageOutcome :=
  if msg.type = Wire.MessageType.REGISTER then
    match Market.lookupA msg.data "client_type" with
    | some (.str v) =>
      match ClientType.ofValue v with
      | some ct =>
        let r := register_client st ct
        .ackSent r.1 r.2
      | none => .closedNoReply
    | _ => .closedNoReply
  else .closedNoReply

/-- A server-lifetime trace event touching the registry: a successful
registration of a client with the given role, or a client removal
(disconnect). -/
inductive RegEvent
  | register (ct : ClientType)
  | disconnect (node_id : String)

/-- Runs a trace of registry events, collecting the node ids assigned by
`register_client` in order. -/
def run_events : RegState → List RegEvent → RegState × List String
  | st, [] => (st, [])
  | st, .register ct :: evs =>
    let r := register_client st ct
    let rest := run_events r.2 evs
    (rest.1, r.1 :: rest.2)
  | st, .disconnect nid :: evs => run_events (remove_client st nid) evs

/-- The `(role, counter)` pairs from which `register_client` builds the node
ids along a trace (specification-level description of the assignments). -/
def assigned_pairs : ℕ → List RegEvent → List (ClientType × ℕ)
  | _, [] => []
  | n, .register ct :: evs => (ct, n) :: assigned_pairs (n + 1) evs
  | n, .disconnect _ :: evs => assigned_pairs n evs

/-- Direct reply sent back to the requesting seller by
`Server.handle_sale_end`: the handler body sends nothing to the seller on
its normal path (it only broadcasts `SALE_END` to buyers), and its
`except` block sends an `ERROR`. -/
inductive SaleEndReply
  | noReply
  | errorReply
deriving DecidableEq, Repr

/-- The server-side state `handle_sale_end` touches.  `active_sales` embeds
the attribute `self.active_sales`, which is read in `handle_sale_end`,
`handle_stock_update`, `handle_sale_timeout` and `Server.get_active_items`
but assigned nowhere — `__init__` never creates it — so on every reachable
server its value is "absent" (`none`), and the first read raises
`AttributeError`. -/
structure ServerState where
  active_sales : Option (List (String × Market.MarketItem))
  market : Market.MarketState

/-- Embeds `Server.handle_sale_end`: under the registry lock it reads
`self.active_sales` — absent, so `AttributeError` is raised, caught by the
handler's own `except Exception` block, which sends an `ERROR` reply.  Were
the attribute present, the handler would only delete the seller's items
from that dict and broadcast `SALE_END`; on no path does it call
`MarketManager.end_sale` or touch seller stocks. -/
def handle_sale_end (srv : ServerState) (seller_node_id : String) :
    ServerState × SaleEndReply :=
  match srv.active_sales with
  | none => (srv, .errorReply)
  | some sales =>
    let seller_items := (sales.map Prod.snd).filter
      fun it => it.seller_id = seller_node_id
    let sales' := sales.filter
      fun p => !(seller_items.map Market.MarketItem.item_id).contains p.1
    (ServerState.mk (some sales') srv.market, .noReply)

end Server

namespace Market

/-- A full stock dict as `initialize_seller_stock` creates it (5.0 each). -/
def stockFull : List (ItemType × ItemStock) :=
  ItemType.all.map fun t => (t, ItemStock.mk t 5 5)

/-- A concrete active sale of 5.0 flower by seller_0. -/
def itemW : MarketItem :=
  { item_id := "item_s0", item_type := .FLOWER, quantity := 5,
    seller_id := "seller_0", sale_start_time := 0 }

/-- A concrete market state: one active sale with a pending timer, one
initialized seller. -/
def sW : MarketState :=
  MarketState.mk [("item_s0", itemW)] [("seller_0", stockFull)] ["item_s0"]

/-- A concrete market state with an initialized seller and no active sale. -/
def sIdle : MarketState :=
  MarketState.mk [] [("seller_0", stockFull)] []

/-- A concrete expired sale: started at clock 0 with the default 60-second
duration, observed at clock 100. -/
def itemExp : MarketItem :=
  { item_id := "item_e", item_type := .FLOWER, quantity := 2,
    seller_id := "seller_0", sale_start_time := 0 }

/-- A concrete market state whose only active item is expired but not yet
reaped. -/
def sExp : MarketState :=
  MarketState.mk [("item_e", itemExp)] [("seller_0", stockFull)] []

/-- A concrete sold-out sale: remaining quantity 0, the situation in which
the server's sold-out policy invokes `end_sale`. -/
def itemZ : MarketItem :=
  { item_id := "item_z", item_type := .FLOWER, quantity := 0,
    seller_id := "seller_0", sale_start_time := 0 }

/-- A concrete market state whose only active item is sold out while the
seller still holds positive reserve stock. -/
def sZ : MarketState :=
  MarketState.mk [("item_z", itemZ)] [("seller_0", stockFull)] []

/-! Association-list lemmas for the embedded dict operations. -/

theorem lookupA_updateAssoc_self {κ α : Type} [DecidableEq κ] {k : κ} (v : α) :
    ∀ {l : List (κ × α)} {w : α}, lookupA l k = some w →
      lookupA (updateAssoc l k v) k = some v := by
  intro l
  induction l with
  | nil => intro w h; simp [lookupA] at h
  | cons p l ih =>
    intro w h
    obtain ⟨pk, pv⟩ := p
    by_cases hk : pk = k
    · subst hk
      simp [updateAssoc, lookupA]
    · simp only [lookupA, hk, if_false] at h
      simpa [updateAssoc, lookupA, hk] using ih h

theorem h1aux {κ : Type} {pk k k' : κ} (hk' : pk = k') (h : k' ≠ k) :
    ¬k = pk := fun he => h (by rw [← hk', ← he])

theorem lookupA_updateAssoc_ne {κ α : Type} [DecidableEq κ] {k k' : κ} (v : α)
    (h : k' ≠ k) : ∀ (l : List (κ × α)),
      lookupA (updateAssoc l k v) k' = lookupA l k' := by
  intro l
  induction l with
  | nil => simp [updateAssoc]
  | cons p l ih =>
    obtain ⟨pk, pv⟩ := p
    simp only [updateAssoc, List.map_cons] at ih ⊢
    by_cases hk : pk = k
    · have h1 : ¬k = k' := fun he => h he.symm
      have h2 : ¬pk = k' := by rw [hk]; exact h1
      simp [lookupA, hk, h1, h2, ih]
    · by_cases hk' : pk = k'
      · simp [lookupA, hk, hk', h, h1aux hk' h, ih]
      · simp [lookupA, hk, hk', ih]

theorem lookupA_removeAssoc_self {κ α : Type} [DecidableEq κ] (k : κ) :
    ∀ (l : List (κ × α)), lookupA (removeAssoc l k) k = none := by
  intro l
  induction l with
  | nil => simp [removeAssoc, lookupA]
  | cons p l ih =>
    obtain ⟨pk, pv⟩ := p
    simp only [removeAssoc, List.filter_cons] at ih ⊢
    by_cases hk : pk = k
    · simp [hk, ih]
    · simp [hk, lookupA, ih]

theorem lookupA_removeAssoc_ne {κ α : Type} [DecidableEq κ] {k k' : κ}
    (h : k' ≠ k) : ∀ (l : List (κ × α)),
      lookupA (removeAssoc l k) k' = lookupA l k' := by
  intro l
  induction l with
  | nil => simp [removeAssoc]
  | cons p l ih =>
    obtain ⟨pk, pv⟩ := p
    simp only [removeAssoc, List.filter_cons] at ih ⊢
    by_cases hk : pk = k
    · have h1 : ¬k = k' := fun he => h he.symm
      simp [hk, lookupA, h1, ih]
    · by_cases hk' : pk = k'
      · simp [hk, hk', lookupA, h, h1aux hk' h, ih]
      · simp [hk, hk', lookupA, ih]

/-- Running any sequence of `try_purchase` calls against a state whose
active set is a single item: the accepted total stays within the item's
initial quantity, and the final state is the same state with only that
item's quantity decreased by exactly the accepted total. -/
theorem purchase_seq_single (iid : String) (qs : List ℚ) :
    ∀ (s : MarketState) (item : MarketItem),
      s.active_items = [(iid, item)] → 0 ≤ item.quantity →
      (purchase_seq s iid qs).2 ≤ item.quantity ∧
      0 ≤ (purchase_seq s iid qs).2 ∧
      ∃ item' : MarketItem,
        (purchase_seq s iid qs).1 = { s with active_items := [(iid, item')] } ∧
        item'.item_id = item.item_id ∧
        item'.item_type = item.item_type ∧
        item'.seller_id = item.seller_id ∧
        item'.quantity = item.quantity - (purchase_seq s iid qs).2 := by
  induction qs with
  | nil =>
    intro s item hs hq
    refine ⟨by simpa [purchase_seq] using hq, le_refl 0, item, ?_, rfl, rfl, rfl,
      by simp [purchase_seq]⟩
    simp only [purchase_seq, ← hs]
  | cons q qs ih =>
    intro s item hs hq
    have hlook : lookupA s.active_items iid = some item := by simp [hs, lookupA]
    by_cases hq0 : q ≤ 0
    · have hstep : try_purchase s iid q = .error .valueAmountNotPositive s := by
        simp [try_purchase, hlook, hq0]
      have h := ih s item hs hq
      simpa only [purchase_seq, hstep] using h
    · by_cases hle : q ≤ item.quantity
      · have hstep : try_purchase s iid q =
            .ok true { s with active_items :=
              [(iid, { item with quantity := item.quantity - q })] } := by
          simp [try_purchase, lookupA, hq0, hle, hs, updateAssoc]
        have hq2 : (0:ℚ) ≤
            ({ item with quantity := item.quantity - q } : MarketItem).quantity :=
          sub_nonneg.2 hle
        have h := ih { s with active_items :=
            [(iid, { item with quantity := item.quantity - q })] }
          { item with quantity := item.quantity - q } rfl hq2
        obtain ⟨hb, hnn, item', hst, hid, hty, hsl, hqty⟩ := h
        have hb' : (purchase_seq { s with active_items :=
            [(iid, { item with quantity := item.quantity - q })] } iid qs).2
            ≤ item.quantity - q := hb
        have hqty' : item'.quantity = item.quantity - q -
            (purchase_seq { s with active_items :=
              [(iid, { item with quantity := item.quantity - q })] } iid qs).2 := hqty
        have hq0' : (0:ℚ) < q := lt_of_not_le hq0
        simp only [purchase_seq, hstep]
        refine ⟨by linarith, by linarith, item', hst, hid, hty,
          hsl, by rw [hqty']; ring⟩
      · have hstep : try_purchase s iid q = .ok false s := by
          simp [try_purchase, hlook, hq0, hle]
        have h := ih s item hs hq
        simpa only [purchase_seq, hstep] using h

/-- C1: each `tryPurchase` call raises `NotFound` (`ValueError "Item not
found"`) when the id has no active sale, raises `InvalidArgument`
(`ValueError "Purchase amount must be positive"`) when the amount is not
positive, succeeds and decrements by exactly the amount when it fits the
remaining quantity, otherwise returns `false` with the state unchanged;
over any sequence of calls against one active item of nonnegative initial
quantity, the accepted total never exceeds the initial quantity, the final
quantity is the initial quantity minus the accepted total, and the
quantity never goes negative. -/
theorem C1_tryPurchase_sequence :
    (∀ (s : MarketState) (iid : String) (q : ℚ),
        lookupA s.active_items iid = none →
        try_purchase s iid q = .error .valueItemNotFound s) ∧
    (∀ (s : MarketState) (iid : String) (item : MarketItem) (q : ℚ),
        lookupA s.active_items iid = some item → q ≤ 0 →
        try_purchase s iid q = .error .valueAmountNotPositive s) ∧
    (∀ (s : MarketState) (iid : String) (item : MarketItem) (q : ℚ),
        lookupA s.active_items iid = some item → 0 < q → q ≤ item.quantity →
        try_purchase s iid q = .ok true { s with
          active_items := updateAssoc s.active_items iid
            { item with quantity := item.quantity - q } }) ∧
    (∀ (s : MarketState) (iid : String) (item : MarketItem) (q : ℚ),
        lookupA s.active_items iid = some item → 0 < q → item.quantity < q →
        try_purchase s iid q = .ok false s) ∧
    (∀ (iid : String) (qs : List ℚ) (s : MarketState) (item : MarketItem),
        s.active_items = [(iid, item)] → 0 ≤ item.quantity →
        (purchase_seq s iid qs).2 ≤ item.quantity ∧
        ∃ item' : MarketItem,
          (purchase_seq s iid qs).1 =
            { s with active_items := [(iid, item')] } ∧
          item'.quantity = item.quantity - (purchase_seq s iid qs).2 ∧
          0 ≤ item'.quantity) := by
  refine ⟨?_, ?_, ?_, ?_, ?_⟩
  · intro s iid q h
    simp [try_purchase, h]
  · intro s iid item q h hq
    simp [try_purchase, h, hq]
  · intro s iid item q h hq hle
    simp [try_purchase, h, not_le.2 hq, hle]
  · intro s iid item q h hq hgt
    simp [try_purchase, h, not_le.2 hq, not_le.2 hgt]
  · intro iid qs s item hs hq
    obtain ⟨hb, hnn, item', hst, _, _, _, hqty⟩ :=
      purchase_seq_single iid qs s item hs hq
    exact ⟨hb, item', hst, hqty, by rw [hqty]; linarith⟩

/-- Witness for C1: against the concrete state `sW` (one active flower sale
of quantity 5), the purchase sequence [2, 2, 3] accepts 4 in total. -/
theorem C1_tryPurchase_sequence_witness :
    sW.active_items = [("item_s0", itemW)] ∧ (0:ℚ) ≤ itemW.quantity ∧
    ((purchase_seq sW "item_s0" [2, 2, 3]).2 ≤ itemW.quantity ∧
     ∃ item' : MarketItem,
       (purchase_seq sW "item_s0" [2, 2, 3]).1 =
         { sW with active_items := [("item_s0", item')] } ∧
       item'.quantity = itemW.quantity - (purchase_seq sW "item_s0" [2, 2, 3]).2 ∧
       0 ≤ item'.quantity) :=
  ⟨rfl, by decide,
    C1_tryPurchase_sequence.2.2.2.2 "item_s0" [2, 2, 3] sW itemW rfl (by decide)⟩

/-- `start_sale` leaves the market state unchanged on every path (it always
raises before mutating anything). -/
theorem start_sale_state (s : MarketState) (sid : String) (t : ItemType)
    (q : ℚ) : (start_sale s sid t q).state = s := by
  by_cases h1 : (lookupA s.seller_stocks sid).isNone
  · simp [start_sale, h1, MResult.state]
  · by_cases h2 : activeItemsOfSeller s sid = []
    · simp [start_sale, h1, h2, MResult.state]
    · simp [start_sale, h1, h2, MResult.state]

/-- The rotation loop never mutates the state it was given. -/
theorem start_next_item_loop_state (s : MarketState)
    (stocks : List (ItemType × ItemStock)) :
    ∀ ts : List ItemType, (start_next_item_loop s stocks ts).state = s := by
  intro ts
  induction ts with
  | nil => rfl
  | cons t ts ih =>
    cases h : lookupA stocks t with
    | none => simp [start_next_item_loop, h, MResult.state]
    | some stock =>
      by_cases hq : 0 < stock.quantity
      · simp [start_next_item_loop, h, hq, MResult.state]
      · simpa [start_next_item_loop, h, hq] using ih

/-- `_start_next_item` never mutates the state it was given. -/
theorem start_next_item_state (s : MarketState) (sid : String) :
    (start_next_item s sid).state = s := by
  cases h : lookupA s.seller_stocks sid with
  | none => simp [start_next_item, h, MResult.state]
  | some stocks => simp [start_next_item, h, start_next_item_loop_state]

/-- Keys absent from an association list are untouched by `removeAssoc`. -/
theorem removeAssoc_of_not_mem {κ α : Type} [DecidableEq κ] {k : κ} :
    ∀ {l : List (κ × α)}, k ∉ l.map Prod.fst → removeAssoc l k = l := by
  intro l
  induction l with
  | nil => intro _; rfl
  | cons p l ih =>
    intro h
    obtain ⟨pk, pv⟩ := p
    simp only [List.map_cons, List.mem_cons] at h
    push_neg at h
    have hpk : ¬pk = k := fun he => h.1 he.symm
    simp only [removeAssoc, List.filter_cons] at ih ⊢
    simp [hpk, ih h.2]

/-- Keys absent from an association list are untouched by `updateAssoc`. -/
theorem updateAssoc_of_not_mem {κ α : Type} [DecidableEq κ] {k : κ} (v : α) :
    ∀ {l : List (κ × α)}, k ∉ l.map Prod.fst → updateAssoc l k v = l := by
  intro l
  induction l with
  | nil => intro _; rfl
  | cons p l ih =>
    intro h
    obtain ⟨pk, pv⟩ := p
    simp only [List.map_cons, List.mem_cons] at h
    push_neg at h
    have hpk : ¬pk = k := fun he => h.1 he.symm
    simp only [updateAssoc, List.map_cons] at ih ⊢
    simp [hpk]
    exact ih h.2

/-- Unfolding `sumSellerType` over the head entry. -/
theorem sumSellerType_cons (k : String) (it : MarketItem)
    (l : List (String × MarketItem)) (seller : String) (t : ItemType) :
    sumSellerType ((k, it) :: l) seller t =
      itemContribution it seller t + sumSellerType l seller t := by
  by_cases h : it.seller_id = seller ∧ it.item_type = t
  · simp [sumSellerType, itemContribution, List.filter_cons, h]
  · simp [sumSellerType, itemContribution, List.filter_cons, h]

/-- `removeAssoc` over the head entry. -/
theorem removeAssoc_cons {κ α : Type} [DecidableEq κ] (pk : κ) (pv : α)
    (l : List (κ × α)) (k : κ) :
    removeAssoc ((pk, pv) :: l) k =
      if pk = k then removeAssoc l k else (pk, pv) :: removeAssoc l k := by
  by_cases h : pk = k
  · simp [removeAssoc, List.filter_cons, h]
  · simp [removeAssoc, List.filter_cons, h]

/-- `updateAssoc` over the head entry. -/
theorem updateAssoc_cons {κ α : Type} [DecidableEq κ] (pk : κ) (pv : α)
    (l : List (κ × α)) (k : κ) (v : α) :
    updateAssoc ((pk, pv) :: l) k v =
      (if pk = k then (k, v) else (pk, pv)) :: updateAssoc l k v := by
  simp [updateAssoc]

/-- Removing a key from an active dict with unique keys subtracts exactly
that item's contribution from the per-seller per-type sum. -/
theorem sumSellerType_removeAssoc {iid : String} {item : MarketItem} :
    ∀ {l : List (String × MarketItem)}, (l.map Prod.fst).Nodup →
      lookupA l iid = some item → ∀ (seller : String) (t : ItemType),
      sumSellerType (removeAssoc l iid) seller t =
        sumSellerType l seller t - itemContribution item seller t := by
  intro l
  induction l with
  | nil => intro _ h; simp [lookupA] at h
  | cons p l ih =>
    intro hnd hlk seller t
    obtain ⟨pk, pv⟩ := p
    simp only [List.map_cons, List.nodup_cons] at hnd
    rw [removeAssoc_cons]
    by_cases hpk : pk = iid
    · subst hpk
      simp only [lookupA, if_pos rfl] at hlk
      obtain rfl := Option.some.inj hlk
      rw [if_pos rfl, removeAssoc_of_not_mem hnd.1, sumSellerType_cons]
      ring
    · simp only [lookupA, if_neg hpk] at hlk
      rw [if_neg hpk, sumSellerType_cons, sumSellerType_cons,
        ih hnd.2 hlk seller t]
      ring

/-- Updating a key in an active dict with unique keys replaces exactly that
item's contribution in the per-seller per-type sum. -/
theorem sumSellerType_updateAssoc {iid : String} {item v : MarketItem} :
    ∀ {l : List (String × MarketItem)}, (l.map Prod.fst).Nodup →
      lookupA l iid = some item → ∀ (seller : String) (t : ItemType),
      sumSellerType (updateAssoc l iid v) seller t =
        sumSellerType l seller t - itemContribution item seller t +
          itemContribution v seller t := by
  intro l
  induction l with
  | nil => intro _ h; simp [lookupA] at h
  | cons p l ih =>
    intro hnd hlk seller t
    obtain ⟨pk, pv⟩ := p
    simp only [List.map_cons, List.nodup_cons] at hnd
    rw [updateAssoc_cons]
    by_cases hpk : pk = iid
    · subst hpk
      simp only [lookupA, if_pos rfl] at hlk
      obtain rfl := Option.some.inj hlk
      rw [if_pos rfl, updateAssoc_of_not_mem v hnd.1, sumSellerType_cons,
        sumSellerType_cons]
      ring
    · simp only [lookupA, if_neg hpk] at hlk
      rw [if_neg hpk, sumSellerType_cons, sumSellerType_cons,
        ih hnd.2 hlk seller t]
      ring

/-- `stockQty` after updating one seller's one stock entry, read back at the
same seller and type. -/
theorem stockQty_update_self {s : MarketState} {seller : String} {t : ItemType}
    {stocks : List (ItemType × ItemStock)} {st0 : ItemStock} (v : ItemStock)
    (hst : lookupA s.seller_stocks seller = some stocks)
    (hstt : lookupA stocks t = some st0) :
    stockQty { s with seller_stocks := (updateAssoc s.seller_stocks seller
        (updateAssoc stocks t v)) } seller t = v.quantity := by
  unfold stockQty
  rw [show lookupA (updateAssoc s.seller_stocks seller (updateAssoc stocks t v))
        seller = some (updateAssoc stocks t v) from
      lookupA_updateAssoc_self _ hst]
  simp [lookupA_updateAssoc_self v hstt]

/-- `stockQty` after updating one seller's one stock entry, read back at any
other (seller, type) pair. -/
theorem stockQty_update_other {s : MarketState} {seller : String} {t : ItemType}
    {stocks : List (ItemType × ItemStock)} (v : ItemStock)
    (hst : lookupA s.seller_stocks seller = some stocks)
    (seller' : String) (t' : ItemType) (h : ¬(seller = seller' ∧ t = t')) :
    stockQty { s with seller_stocks := (updateAssoc s.seller_stocks seller
        (updateAssoc stocks t v)) } seller' t' = stockQty s seller' t' := by
  by_cases hs' : seller' = seller
  · subst hs'
    have ht' : t' ≠ t := by
      intro he
      exact h ⟨rfl, he.symm⟩
    unfold stockQty
    rw [show lookupA (updateAssoc s.seller_stocks seller' (updateAssoc stocks t v))
          seller' = some (updateAssoc stocks t v) from
        lookupA_updateAssoc_self _ hst,
      hst]
    simp [lookupA_updateAssoc_ne v ht']
  · unfold stockQty
    rw [lookupA_updateAssoc_ne _ hs']

/-- `end_sale` on an unknown item id is a no-op returning `None`. -/
theorem end_sale_unknown (s : MarketState) (iid : String) (rotate : Bool)
    (h : lookupA s.active_items iid = none) :
    end_sale s iid rotate = .ok none s := by
  simp [end_sale, h]

/-- State left by `end_sale` on an active item with positive quantity whose
seller stock entry exists: stock restored, item removed, timer dropped (the
same state whether the call then returns, or hangs in the rotation). -/
theorem end_sale_state_pos {s : MarketState} {iid : String} {item : MarketItem}
    {stocks : List (ItemType × ItemStock)} {st0 : ItemStock} (rotate : Bool)
    (hA : lookupA s.active_items iid = some item)
    (hq : 0 < item.quantity)
    (hst : lookupA s.seller_stocks item.seller_id = some stocks)
    (hstt : lookupA stocks item.item_type = some st0) :
    (end_sale s iid rotate).state =
      { s with
        seller_stocks := updateAssoc s.seller_stocks item.seller_id
          (updateAssoc stocks item.item_type
            { st0 with quantity := st0.quantity + item.quantity }),
        active_items := removeAssoc s.active_items iid,
        item_rotation_timers :=
          s.item_rotation_timers.filter fun i => i != iid } := by
  cases rotate
  · simp [end_sale, hA, hq, hst, hstt, MResult.state]
  · simp [end_sale, hA, hq, hst, hstt, start_next_item_state]

/-- State left by `end_sale` on an active item with non-positive quantity:
no restore happens; item removed, timer dropped. -/
theorem end_sale_state_zero {s : MarketState} {iid : String} {item : MarketItem}
    (rotate : Bool)
    (hA : lookupA s.active_items iid = some item)
    (hq : ¬0 < item.quantity) :
    (end_sale s iid rotate).state =
      { s with
        active_items := removeAssoc s.active_items iid,
        item_rotation_timers :=
          s.item_rotation_timers.filter fun i => i != iid } := by
  cases rotate
  · simp [end_sale, hA, hq, MResult.state]
  · simp [end_sale, hA, hq, start_next_item_state]

/-- `end_sale` on an active item with positive quantity whose seller stock
entry is missing raises `KeyError` before mutating anything. -/
theorem end_sale_keyerror {s : MarketState} {iid : String} {item : MarketItem}
    (rotate : Bool)
    (hA : lookupA s.active_items iid = some item)
    (hq : 0 < item.quantity)
    (hmiss : (lookupA s.seller_stocks item.seller_id).bind
        (fun stocks => lookupA stocks item.item_type) = none) :
    end_sale s iid rotate = .error .keyError s := by
  simp [end_sale, hA, hq, hmiss]

/-- The conserved quantity is unchanged by `end_sale` on a known item with
nonnegative quantity, whatever the rotation flag and whether the call
returns, raises, or hangs. -/
theorem conserved_end_sale_known (s : MarketState) (iid : String) (rotate : Bool)
    (item : MarketItem) (seller : String) (ty : ItemType)
    (hnd : (s.active_items.map Prod.fst).Nodup)
    (hA : lookupA s.active_items iid = some item)
    (hq0 : 0 ≤ item.quantity) :
    conserved ((end_sale s iid rotate).state) seller ty = conserved s seller ty := by
  by_cases hq : 0 < item.quantity
  · cases hbind : (lookupA s.seller_stocks item.seller_id).bind
        (fun st => lookupA st item.item_type) with
    | none =>
      rw [end_sale_keyerror rotate hA hq hbind]
      rfl
    | some st0 =>
      obtain ⟨stocks, hst, hstt⟩ : ∃ stocks,
          lookupA s.seller_stocks item.seller_id = some stocks ∧
          lookupA stocks item.item_type = some st0 := by
        cases hout : lookupA s.seller_stocks item.seller_id with
        | none => rw [hout] at hbind; simp at hbind
        | some stocks =>
          rw [hout] at hbind
          exact ⟨stocks, rfl, by simpa using hbind⟩
      rw [end_sale_state_pos rotate hA hq hst hstt]
      have hsum : sumSellerType (removeAssoc s.active_items iid) seller ty =
          sumSellerType s.active_items seller ty -
            itemContribution item seller ty :=
        sumSellerType_removeAssoc hnd hA seller ty
      unfold conserved
      by_cases hm : item.seller_id = seller ∧ item.item_type = ty
      · obtain ⟨hm1, hm2⟩ := hm
        subst hm1
        subst hm2
        have hnew : stockQty { s with
            seller_stocks := (updateAssoc s.seller_stocks item.seller_id
              (updateAssoc stocks item.item_type
                { st0 with quantity := st0.quantity + item.quantity })),
            active_items := removeAssoc s.active_items iid,
            item_rotation_timers :=
              s.item_rotation_timers.filter fun i => i != iid }
            item.seller_id item.item_type = st0.quantity + item.quantity :=
          stockQty_update_self _ hst hstt
        have hold : stockQty s item.seller_id item.item_type = st0.quantity := by
          simp [stockQty, hst, hstt]
        have hc : itemContribution item item.seller_id item.item_type =
            item.quantity := by
          simp [itemContribution]
        rw [hnew, hold]
        have hsum2 : sumSellerType (removeAssoc s.active_items iid)
            item.seller_id item.item_type =
            sumSellerType s.active_items item.seller_id item.item_type -
              item.quantity := by rw [hsum, hc]
        rw [hsum2]
        ring
      · have hnew : stockQty { s with
            seller_stocks := (updateAssoc s.seller_stocks item.seller_id
              (updateAssoc stocks item.item_type
                { st0 with quantity := st0.quantity + item.quantity })),
            active_items := removeAssoc s.active_items iid,
            item_rotation_timers :=
              s.item_rotation_timers.filter fun i => i != iid }
            seller ty = stockQty s seller ty :=
          stockQty_update_other _ hst seller ty hm
        have hc : itemContribution item seller ty = 0 := by
          simp [itemContribution, hm]
        rw [hnew]
        have hsum2 : sumSellerType (removeAssoc s.active_items iid) seller ty =
            sumSellerType s.active_items seller ty := by rw [hsum, hc]; ring
        rw [hsum2]
  · have hz : item.quantity = 0 := le_antisymm (not_lt.1 hq) hq0
    rw [end_sale_state_zero rotate hA hq]
    unfold conserved
    have hsq : stockQty { s with
        active_items := removeAssoc s.active_items iid,
        item_rotation_timers :=
          s.item_rotation_timers.filter fun i => i != iid }
        seller ty = stockQty s seller ty := rfl
    have hc : itemContribution item seller ty = 0 := by
      by_cases hm : item.seller_id = seller ∧ item.item_type = ty
      · simp [itemContribution, hm, hz]
      · simp [itemContribution, hm]
    have hsum : sumSellerType (removeAssoc s.active_items iid) seller ty =
        sumSellerType s.active_items seller ty := by
      rw [sumSellerType_removeAssoc hnd hA seller ty, hc]
      ring
    rw [hsq, hsum]

/-- A successful `try_purchase` decreases the conserved quantity of that
item's seller and type by exactly the purchased amount, and no other. -/
theorem conserved_try_purchase_true (s : MarketState) (iid : String) (q : ℚ)
    (item : MarketItem)
    (hnd : (s.active_items.map Prod.fst).Nodup)
    (hA : lookupA s.active_items iid = some item)
    (hq0 : ¬q ≤ 0) (hle : q ≤ item.quantity) :
    conserved ((try_purchase s iid q).state) item.seller_id item.item_type =
      conserved s item.seller_id item.item_type - q ∧
    ∀ (seller : String) (ty : ItemType),
      ¬(item.seller_id = seller ∧ item.item_type = ty) →
      conserved ((try_purchase s iid q).state) seller ty =
        conserved s seller ty := by
  have hstep : try_purchase s iid q = .ok true { s with
      active_items := updateAssoc s.active_items iid
        { item with quantity := item.quantity - q } } := by
    simp [try_purchase, hA, hq0, hle]
  rw [hstep]
  simp only [MResult.state]
  constructor
  · unfold conserved
    have hsq : stockQty { s with
        active_items := updateAssoc s.active_items iid
          { item with quantity := item.quantity - q } }
        item.seller_id item.item_type =
        stockQty s item.seller_id item.item_type := rfl
    have hc1 : itemContribution item item.seller_id item.item_type =
        item.quantity := by simp [itemContribution]
    have hc2 : itemContribution { item with quantity := item.quantity - q }
        item.seller_id item.item_type = item.quantity - q := by
      simp [itemContribution]
    have hsum2 : sumSellerType (updateAssoc s.active_items iid
        { item with quantity := item.quantity - q })
        item.seller_id item.item_type =
        sumSellerType s.active_items item.seller_id item.item_type -
          item.quantity + (item.quantity - q) := by
      rw [sumSellerType_updateAssoc hnd hA item.seller_id item.item_type, hc1, hc2]
    rw [hsq, hsum2]
    ring
  · intro seller ty hm
    unfold conserved
    have hsq : stockQty { s with
        active_items := updateAssoc s.active_items iid
          { item with quantity := item.quantity - q } }
        seller ty = stockQty s seller ty := rfl
    have hc1 : itemContribution item seller ty = 0 := by
      simp [itemContribution, hm]
    have hc2 : itemContribution { item with quantity := item.quantity - q }
        seller ty = 0 := by
      simp only [itemContribution]
      rw [if_neg]
      intro hmm
      exact hm ⟨hmm.1, hmm.2⟩
    have hsum2 : sumSellerType (updateAssoc s.active_items iid
        { item with quantity := item.quantity - q }) seller ty =
        sumSellerType s.active_items seller ty := by
      rw [sumSellerType_updateAssoc hnd hA seller ty, hc1, hc2]
      ring
    rw [hsq, hsum2]

/-- An element never survives a filter that excludes exactly it. -/
theorem not_mem_filter_bne (a : String) :
    ∀ l : List String, a ∉ l.filter fun i => i != a := by
  intro l hmem
  have h := List.mem_filter.1 hmem
  simp at h

/-- The rotation loop hangs on the manager lock as soon as it reaches a
stock entry with positive quantity, provided no earlier entry is missing. -/
theorem start_next_item_loop_deadlock (s : MarketState)
    (stocks : List (ItemType × ItemStock)) :
    ∀ ts : List ItemType,
      (∀ t ∈ ts, (lookupA stocks t).isSome) →
      (∃ t ∈ ts, ∃ st, lookupA stocks t = some st ∧ 0 < st.quantity) →
      start_next_item_loop s stocks ts = .deadlock s := by
  intro ts
  induction ts with
  | nil =>
    intro _ h
    simp at h
  | cons t0 ts ih =>
    intro hall hex
    obtain ⟨st0, hst0⟩ :=
      Option.isSome_iff_exists.1 (hall t0 (List.mem_cons_self t0 ts))
    by_cases hq : 0 < st0.quantity
    · simp [start_next_item_loop, hst0, hq]
    · obtain ⟨t, htmem, st, hst, hstq⟩ := hex
      have htail : ∃ t ∈ ts, ∃ st, lookupA stocks t = some st ∧
          0 < st.quantity := by
        rcases List.mem_cons.1 htmem with rfl | hmem
        · rw [hst0] at hst
          obtain rfl := Option.some.inj hst
          exact absurd hstq hq
        · exact ⟨t, hmem, st, hst, hstq⟩
      have hrec := ih (fun t ht => hall t (List.mem_cons_of_mem _ ht)) htail
      simp [start_next_item_loop, hst0, hq, hrec]

/-- C2: for every seller and item type, reserve stock plus that seller's
active-sale quantities of that type is unchanged by `start_sale` (which
always raises before mutating) and by `end_sale` in every outcome, and is
decreased — by exactly the purchased amount, and only for the purchased
item's seller and type — precisely when `try_purchase` returns `true`;
failing or erroring purchases leave the state unchanged. -/
theorem C2_quantity_conservation :
    (∀ (s : MarketState) (sid : String) (t : ItemType) (q : ℚ)
        (seller : String) (ty : ItemType),
        conserved ((start_sale s sid t q).state) seller ty =
          conserved s seller ty) ∧
    (∀ (s : MarketState) (iid : String) (rotate : Bool) (seller : String)
        (ty : ItemType), lookupA s.active_items iid = none →
        conserved ((end_sale s iid rotate).state) seller ty =
          conserved s seller ty) ∧
    (∀ (s : MarketState) (iid : String) (rotate : Bool) (item : MarketItem)
        (seller : String) (ty : ItemType),
        (s.active_items.map Prod.fst).Nodup →
        lookupA s.active_items iid = some item → 0 ≤ item.quantity →
        conserved ((end_sale s iid rotate).state) seller ty =
          conserved s seller ty) ∧
    (∀ (s : MarketState) (iid : String) (q : ℚ) (item : MarketItem),
        (s.active_items.map Prod.fst).Nodup →
        lookupA s.active_items iid = some item → ¬q ≤ 0 →
        q ≤ item.quantity →
        conserved ((try_purchase s iid q).state) item.seller_id
            item.item_type =
          conserved s item.seller_id item.item_type - q ∧
        ∀ (seller : String) (ty : ItemType),
          ¬(item.seller_id = seller ∧ item.item_type = ty) →
          conserved ((try_purchase s iid q).state) seller ty =
            conserved s seller ty) ∧
    (∀ (s : MarketState) (iid : String) (q : ℚ) (item : MarketItem),
        lookupA s.active_items iid = some item → ¬q ≤ 0 →
        item.quantity < q → try_purchase s iid q = .ok false s) ∧
    (∀ (s : MarketState) (iid : String) (q : ℚ) (e : PyError)
        (s' : MarketState), try_purchase s iid q = .error e s' → s' = s) := by
  refine ⟨?_, ?_, ?_, ?_, ?_, ?_⟩
  · intro s sid t q seller ty
    rw [start_sale_state]
  · intro s iid rotate seller ty h
    rw [end_sale_unknown s iid rotate h]
    rfl
  · exact conserved_end_sale_known
  · exact conserved_try_purchase_true
  · intro s iid q item hA hq0 hgt
    simp [try_purchase, hA, hq0, not_le.2 hgt]
  · intro s iid q e s' h
    cases hA : lookupA s.active_items iid with
    | none =>
      rw [try_purchase, hA] at h
      exact (MResult.error.inj h).2.symm
    | some item =>
      by_cases hq0 : q ≤ 0
      · rw [try_purchase, hA] at h
        simp only [if_pos hq0] at h
        exact (MResult.error.inj h).2.symm
      · by_cases hle : q ≤ item.quantity
        · rw [try_purchase, hA] at h
          simp [hq0, hle] at h
        · rw [try_purchase, hA] at h
          simp [hq0, hle] at h

/-- Witness for C2: at the concrete state `sW`, ending the active sale (in
any outcome) preserves the conserved quantity, and a purchase of 2 lowers
it by exactly 2. -/
theorem C2_quantity_conservation_witness :
    ((sW.active_items.map Prod.fst).Nodup ∧
      lookupA sW.active_items "item_s0" = some itemW ∧
      (0:ℚ) ≤ itemW.quantity ∧ ¬(2:ℚ) ≤ 0 ∧ (2:ℚ) ≤ itemW.quantity) ∧
    conserved ((end_sale sW "item_s0" true).state) "seller_0" .FLOWER =
      conserved sW "seller_0" .FLOWER ∧
    conserved ((try_purchase sW "item_s0" 2).state) itemW.seller_id
        itemW.item_type =
      conserved sW itemW.seller_id itemW.item_type - 2 :=
  ⟨⟨by decide, by decide, by decide, by decide, by decide⟩,
    C2_quantity_conservation.2.2.1 sW "item_s0" true itemW "seller_0" .FLOWER
      (by decide) (by decide) (by decide),
    (C2_quantity_conservation.2.2.2.1 sW "item_s0" 2 itemW (by decide)
      (by decide) (by decide) (by decide)).1⟩

/-- C7: `end_sale` on an unknown id returns `None` without error and
without touching the state; on an active item (with nonnegative quantity
and an existing stock entry) the state it leaves behind has the item
removed from the active set, its rotation timer cancelled, and the unsold
quantity added back to the seller's reserve for that type; a second
`end_sale` on the same id is then a no-op. -/
theorem C7_endSale_restores_and_idempotent :
    (∀ (s : MarketState) (iid : String) (rotate : Bool),
        lookupA s.active_items iid = none →
        end_sale s iid rotate = .ok none s) ∧
    (∀ (s : MarketState) (iid : String) (rotate : Bool) (item : MarketItem),
        lookupA s.active_items iid = some item → 0 ≤ item.quantity →
        ((lookupA s.seller_stocks item.seller_id).bind
          (fun st => lookupA st item.item_type)).isSome →
        lookupA ((end_sale s iid rotate).state).active_items iid = none ∧
        iid ∉ ((end_sale s iid rotate).state).item_rotation_timers ∧
        stockQty ((end_sale s iid rotate).state) item.seller_id
            item.item_type =
          stockQty s item.seller_id item.item_type + item.quantity ∧
        ∀ rotate' : Bool,
          end_sale ((end_sale s iid rotate).state) iid rotate' =
            .ok none ((end_sale s iid rotate).state)) := by
  refine ⟨end_sale_unknown, ?_⟩
  intro s iid rotate item hA hq0 hsome
  obtain ⟨st0, hbind⟩ := Option.isSome_iff_exists.1 hsome
  obtain ⟨stocks, hst, hstt⟩ : ∃ stocks,
      lookupA s.seller_stocks item.seller_id = some stocks ∧
      lookupA stocks item.item_type = some st0 := by
    cases hout : lookupA s.seller_stocks item.seller_id with
    | none => rw [hout] at hbind; simp at hbind
    | some stocks =>
      rw [hout] at hbind
      exact ⟨stocks, rfl, by simpa using hbind⟩
  by_cases hq : 0 < item.quantity
  · rw [end_sale_state_pos rotate hA hq hst hstt]
    have h1 : lookupA (removeAssoc s.active_items iid) iid = none :=
      lookupA_removeAssoc_self iid s.active_items
    have h2 : iid ∉ s.item_rotation_timers.filter (fun i => i != iid) :=
      not_mem_filter_bne iid s.item_rotation_timers
    have h3 : stockQty { s with
        seller_stocks := (updateAssoc s.seller_stocks item.seller_id
          (updateAssoc stocks item.item_type
            { st0 with quantity := st0.quantity + item.quantity })),
        active_items := removeAssoc s.active_items iid,
        item_rotation_timers :=
          s.item_rotation_timers.filter fun i => i != iid }
        item.seller_id item.item_type = st0.quantity + item.quantity :=
      stockQty_update_self _ hst hstt
    have hold : stockQty s item.seller_id item.item_type = st0.quantity := by
      simp [stockQty, hst, hstt]
    refine ⟨h1, h2, by rw [h3, hold], ?_⟩
    intro rotate'
    exact end_sale_unknown _ iid rotate' h1
  · have hz : item.quantity = 0 := le_antisymm (not_lt.1 hq) hq0
    rw [end_sale_state_zero rotate hA hq]
    have h1 : lookupA (removeAssoc s.active_items iid) iid = none :=
      lookupA_removeAssoc_self iid s.active_items
    have h2 : iid ∉ s.item_rotation_timers.filter (fun i => i != iid) :=
      not_mem_filter_bne iid s.item_rotation_timers
    refine ⟨h1, h2, by rw [hz]; ring_nf; rfl, ?_⟩
    intro rotate'
    exact end_sale_unknown _ iid rotate' h1

/-- Witness for C7 at the concrete state `sW` (active flower sale of 5 with
a pending timer). -/
theorem C7_endSale_restores_and_idempotent_witness :
    (lookupA sW.active_items "item_s0" = some itemW ∧
      (0:ℚ) ≤ itemW.quantity ∧
      ((lookupA sW.seller_stocks itemW.seller_id).bind
        (fun st => lookupA st itemW.item_type)).isSome = true) ∧
    (lookupA ((end_sale sW "item_s0" true).state).active_items "item_s0" =
        none ∧
      "item_s0" ∉ ((end_sale sW "item_s0" true).state).item_rotation_timers ∧
      stockQty ((end_sale sW "item_s0" true).state) itemW.seller_id
          itemW.item_type =
        stockQty sW itemW.seller_id itemW.item_type + itemW.quantity ∧
      ∀ rotate' : Bool,
        end_sale ((end_sale sW "item_s0" true).state) "item_s0" rotate' =
          .ok none ((end_sale sW "item_s0" true).state)) :=
  ⟨⟨by decide, by decide, by decide⟩,
    C7_endSale_restores_and_idempotent.2 sW "item_s0" true itemW (by decide)
      (by decide) (by decide)⟩

/-- Every `ItemType` occurs in the enum iteration order. -/
theorem mem_ItemType_all : ∀ t : ItemType, t ∈ ItemType.all := by
  intro t
  cases t <;> simp [ItemType.all]

/-- C8: `end_sale` with `auto_rotate = True` (the default, used by timer
expiry and by the server's sold-out policy, which calls it exactly when the
remaining quantity reaches zero) on an active item whose seller has any
stock entry with positive quantity after the unsold remainder is restored
never returns: still holding the non-reentrant manager lock it reaches
`start_sale` through `_start_next_item`, which blocks forever acquiring
that same lock.  The hypothesis is stated on the post-restore stocks: when
`item.quantity` is positive the restore has updated the item's own entry,
and when it is zero (the sold-out path) no restore happens and the original
entries decide. -/
theorem C8_endSale_autoRotate_deadlocks :
    ∀ (s : MarketState) (iid : String) (item : MarketItem)
      (stocks : List (ItemType × ItemStock)) (st0 : ItemStock),
      lookupA s.active_items iid = some item →
      lookupA s.seller_stocks item.seller_id = some stocks →
      (∀ t : ItemType, (lookupA stocks t).isSome) →
      lookupA stocks item.item_type = some st0 →
      (∃ t st, lookupA (if 0 < item.quantity
          then updateAssoc stocks item.item_type
            { st0 with quantity := st0.quantity + item.quantity }
          else stocks) t = some st ∧ 0 < st.quantity) →
      ∃ s', end_sale s iid true = .deadlock s' := by
  intro s iid item stocks st0 hA hst hall hstt hAfter
  by_cases hq : 0 < item.quantity
  · rw [if_pos hq] at hAfter
    have hres : end_sale s iid true =
        start_next_item { s with
          seller_stocks := (updateAssoc s.seller_stocks item.seller_id
            (updateAssoc stocks item.item_type
              { st0 with quantity := st0.quantity + item.quantity })),
          active_items := removeAssoc s.active_items iid,
          item_rotation_timers :=
            s.item_rotation_timers.filter fun i => i != iid }
          item.seller_id := by
      simp [end_sale, hA, hq, hst, hstt]
    have hlk2 : lookupA (updateAssoc s.seller_stocks item.seller_id
        (updateAssoc stocks item.item_type
          { st0 with quantity := st0.quantity + item.quantity }))
        item.seller_id =
        some (updateAssoc stocks item.item_type
          { st0 with quantity := st0.quantity + item.quantity }) :=
      lookupA_updateAssoc_self _ hst
    have hall2 : ∀ t ∈ ItemType.all,
        (lookupA (updateAssoc stocks item.item_type
          { st0 with quantity := st0.quantity + item.quantity }) t).isSome := by
      intro t _
      by_cases ht : t = item.item_type
      · subst ht
        rw [lookupA_updateAssoc_self _ hstt]
        rfl
      · rw [lookupA_updateAssoc_ne _ ht]
        exact hall t
    have hex : ∃ t ∈ ItemType.all, ∃ st,
        lookupA (updateAssoc stocks item.item_type
          { st0 with quantity := st0.quantity + item.quantity }) t = some st ∧
        0 < st.quantity := by
      obtain ⟨t, st, h1, h2⟩ := hAfter
      exact ⟨t, mem_ItemType_all t, st, h1, h2⟩
    refine ⟨{ s with
        seller_stocks := (updateAssoc s.seller_stocks item.seller_id
          (updateAssoc stocks item.item_type
            { st0 with quantity := st0.quantity + item.quantity })),
        active_items := removeAssoc s.active_items iid,
        item_rotation_timers :=
          s.item_rotation_timers.filter fun i => i != iid }, ?_⟩
    rw [hres]
    rw [show start_next_item { s with
          seller_stocks := (updateAssoc s.seller_stocks item.seller_id
            (updateAssoc stocks item.item_type
              { st0 with quantity := st0.quantity + item.quantity })),
          active_items := removeAssoc s.active_items iid,
          item_rotation_timers :=
            s.item_rotation_timers.filter fun i => i != iid }
          item.seller_id =
        start_next_item_loop { s with
          seller_stocks := (updateAssoc s.seller_stocks item.seller_id
            (updateAssoc stocks item.item_type
              { st0 with quantity := st0.quantity + item.quantity })),
          active_items := removeAssoc s.active_items iid,
          item_rotation_timers :=
            s.item_rotation_timers.filter fun i => i != iid }
          (updateAssoc stocks item.item_type
            { st0 with quantity := st0.quantity + item.quantity })
          ItemType.all from by
        simp [start_next_item, hlk2]]
    exact start_next_item_loop_deadlock _ _ ItemType.all hall2 hex
  · rw [if_neg hq] at hAfter
    have hres : end_sale s iid true =
        start_next_item { s with
          active_items := removeAssoc s.active_items iid,
          item_rotation_timers :=
            s.item_rotation_timers.filter fun i => i != iid }
          item.seller_id := by
      simp [end_sale, hA, hq]
    have hall2 : ∀ t ∈ ItemType.all, (lookupA stocks t).isSome :=
      fun t _ => hall t
    have hex : ∃ t ∈ ItemType.all, ∃ st,
        lookupA stocks t = some st ∧ 0 < st.quantity := by
      obtain ⟨t, st, h1, h2⟩ := hAfter
      exact ⟨t, mem_ItemType_all t, st, h1, h2⟩
    refine ⟨{ s with
        active_items := removeAssoc s.active_items iid,
        item_rotation_timers :=
          s.item_rotation_timers.filter fun i => i != iid }, ?_⟩
    rw [hres]
    rw [show start_next_item { s with
          active_items := removeAssoc s.active_items iid,
          item_rotation_timers :=
            s.item_rotation_timers.filter fun i => i != iid }
          item.seller_id =
        start_next_item_loop { s with
          active_items := removeAssoc s.active_items iid,
          item_rotation_timers :=
            s.item_rotation_timers.filter fun i => i != iid }
          stocks ItemType.all from by
        simp [start_next_item, hst]]
    exact start_next_item_loop_deadlock _ _ ItemType.all hall2 hex

/-- Witness for C8, for both triggering scenarios: ending the concrete
active flower sale of `sW` (positive remainder, restored to stock) hangs,
and ending the concrete sold-out sale of `sZ` (quantity 0, no restore, but
positive reserve stock) hangs as well. -/
theorem C8_endSale_autoRotate_deadlocks_witness :
    ((lookupA sW.active_items "item_s0" = some itemW ∧
      lookupA sW.seller_stocks itemW.seller_id = some stockFull ∧
      (∀ t : ItemType, (lookupA stockFull t).isSome = true) ∧
      lookupA stockFull itemW.item_type = some (ItemStock.mk .FLOWER 5 5)) ∧
      ∃ s', end_sale sW "item_s0" true = .deadlock s') ∧
    ((lookupA sZ.active_items "item_z" = some itemZ ∧
      lookupA sZ.seller_stocks itemZ.seller_id = some stockFull ∧
      ¬(0:ℚ) < itemZ.quantity) ∧
      ∃ s', end_sale sZ "item_z" true = .deadlock s') :=
  ⟨⟨⟨by decide, by decide, by intro t; cases t <;> decide, by decide⟩,
      C8_endSale_autoRotate_deadlocks sW "item_s0" itemW stockFull
        (ItemStock.mk .FLOWER 5 5) (by decide) (by decide)
        (by intro t; cases t <;> decide) (by decide)
        ⟨.SUGAR, ItemStock.mk .SUGAR 5 5, by decide, by decide⟩⟩,
    ⟨⟨by decide, by decide, by decide⟩,
      C8_endSale_autoRotate_deadlocks sZ "item_z" itemZ stockFull
        (ItemStock.mk .FLOWER 5 5) (by decide) (by decide)
        (by intro t; cases t <;> decide) (by decide)
        ⟨.FLOWER, ItemStock.mk .FLOWER 5 5, by decide, by decide⟩⟩⟩

/-- C4: for every state, seller with initialized stock and no active sale,
item type and quantity, `start_sale` raises `NameError` (the shadowing
`_start_sale_timer` evaluates the unbound module name `threading`) before
the item is added to the active set: the call never returns a `MarketItem`
and leaves the state unchanged. -/
theorem C4_startSale_raises_NameError :
    ∀ (s : MarketState) (seller_id : String) (t : ItemType) (q : ℚ),
      (lookupA s.seller_stocks seller_id).isSome →
      activeItemsOfSeller s seller_id = [] →
      start_sale s seller_id t q = .error .nameErrorThreading s := by
  intro s sid t q hsome hact
  obtain ⟨v, hv⟩ := Option.isSome_iff_exists.1 hsome
  simp [start_sale, hv, hact]

/-- Witness for C4 at the concrete idle state (initialized seller_0, no
active sale). -/
theorem C4_startSale_raises_NameError_witness :
    (lookupA sIdle.seller_stocks "seller_0").isSome = true ∧
    activeItemsOfSeller sIdle "seller_0" = [] ∧
    start_sale sIdle "seller_0" .FLOWER 3 = .error .nameErrorThreading sIdle :=
  ⟨by decide, by decide,
    C4_startSale_raises_NameError sIdle "seller_0" .FLOWER 3 (by decide) (by decide)⟩

/-- C3 (code bug): at a concrete valid request — seller_0 initialized with
reserve 5 of every type, no live sale, requesting 3 flower with
0 < 3 ≤ 5 — `start_sale` raises `NameError` instead of decrementing the
reserve and returning a `MarketItem` of quantity 3; the quantity
validations (`InsufficientStock`, `InvalidArgument`) and the reserve
decrement the claim describes do not exist anywhere on its code path. -/
theorem C3_startSale_valid_call_raises :
    (0:ℚ) < 3 ∧ (3:ℚ) ≤ stockQty sIdle "seller_0" .FLOWER ∧
    start_sale sIdle "seller_0" .FLOWER 3 = .error .nameErrorThreading sIdle ∧
    stockQty ((start_sale sIdle "seller_0" .FLOWER 3).state) "seller_0" .FLOWER =
      stockQty sIdle "seller_0" .FLOWER := by
  refine ⟨by norm_num, by decide, by decide, by decide⟩

/-- C6 counterexample: `itemExp` is expired at clock 100 (elapsed 100 > 60)
yet `get_active_items` still returns it, so the returned snapshot does not
exclude expired items. -/
theorem C6_counterexample_expired_item_listed :
    itemExp.is_expired 100 = true ∧ itemExp ∈ get_active_items sExp := by
  refine ⟨?_, by decide⟩
  simp only [MarketItem.is_expired, itemExp]
  norm_num

/-- C6 amended: `get_active_items` returns a snapshot of every item in the
active set — including items whose `is_expired` is already true (the method
does not consult expiry at all). -/
theorem C6_getActiveItems_includes_expired :
    ∀ (s : MarketState) (id : String) (it : MarketItem) (now : ℚ),
      (id, it) ∈ s.active_items → it.is_expired now = true →
      it ∈ get_active_items s := by
  intro s id it now hmem _
  exact List.mem_map.2 ⟨(id, it), hmem, rfl⟩

/-- Witness for the amended C6 at the concrete expired-item state. -/
theorem C6_getActiveItems_includes_expired_witness :
    (("item_e", itemExp) ∈ sExp.active_items ∧ itemExp.is_expired 100 = true) ∧
    itemExp ∈ get_active_items sExp :=
  ⟨⟨by decide, by simp only [MarketItem.is_expired, itemExp]; norm_num⟩,
    C6_getActiveItems_includes_expired sExp "item_e" itemExp 100 (by decide)
      (by simp only [MarketItem.is_expired, itemExp]; norm_num)⟩

end Market

/-- C5: deserializing the serialization of any constructible `Message`
yields the message back (`MessageEncoder.deserialize ∘ MessageEncoder.serialize`
is the identity): the field lookups find the three serialized fields and
the `MessageType` wire-string lookup inverts `.value` on every member. -/
theorem C5_encode_decode_roundtrip :
    ∀ m : Wire.Message, Wire.deserialize (Wire.serialize m) = .ok m := by
  intro m
  obtain ⟨t, d, sid⟩ := m
  cases t <;> rfl

/-- C9 (code bug): on `SALE_END` the handler's first statement reads
`self.active_sales`, an attribute no code ever assigns, so `AttributeError`
is raised and its `except` block sends an `ERROR` reply; the market state
is untouched and `MarketManager.end_sale` is never invoked, so no stock is
restored and no success reply exists. -/
theorem C9_handle_sale_end_errors :
    ∀ (m : Market.MarketState) (seller_node : String),
      Server.handle_sale_end (Server.ServerState.mk none m) seller_node =
        (Server.ServerState.mk none m, Server.SaleEndReply.errorReply) := by
  intro m sid
  rfl

/-! `Nat.repr` is injective: needed to show node ids are never reused. -/

theorem toDigitsCore_append :
    ∀ (f n : ℕ) (acc : List Char),
      Nat.toDigitsCore 10 f n acc = Nat.toDigitsCore 10 f n [] ++ acc := by
  intro f
  induction f with
  | zero => intro n acc; rfl
  | succ f ih =>
    intro n acc
    simp only [Nat.toDigitsCore]
    by_cases h : n / 10 = 0
    · simp [h]
    · simp only [h, if_false]
      rw [ih (n / 10) (Nat.digitChar (n % 10) :: acc),
        ih (n / 10) [Nat.digitChar (n % 10)]]
      simp

theorem toDigitsCore_fuel :
    ∀ (n f₁ f₂ : ℕ), n < f₁ → n < f₂ →
      Nat.toDigitsCore 10 f₁ n [] = Nat.toDigitsCore 10 f₂ n [] := by
  intro n
  induction n using Nat.strong_induction_on with
  | _ n ih =>
    intro f₁ f₂ h₁ h₂
    match f₁, h₁ with
    | f₁ + 1, h₁ =>
    match f₂, h₂ with
    | f₂ + 1, h₂ =>
    simp only [Nat.toDigitsCore]
    by_cases h : n / 10 = 0
    · simp [h]
    · simp only [h, if_false]
      have hlt : n / 10 < n := Nat.div_lt_self (by omega) (by norm_num)
      rw [toDigitsCore_append f₁, toDigitsCore_append f₂,
        ih (n / 10) hlt f₁ f₂ (by omega) (by omega)]

theorem digitsVal_append (l : List Char) (c : Char) :
    Server.digitsVal (l ++ [c]) =
      10 * Server.digitsVal l + (c.toNat - 48) := by
  simp [Server.digitsVal, List.foldl_append]

theorem digitChar_val :
    ∀ r : ℕ, r < 10 → (Nat.digitChar r).toNat - 48 = r := by
  intro r h
  interval_cases r <;> rfl

theorem digitsVal_toDigits :
    ∀ n : ℕ, Server.digitsVal (Nat.toDigits 10 n) = n := by
  intro n
  induction n using Nat.strong_induction_on with
  | _ n ih =>
    unfold Nat.toDigits
    simp only [Nat.toDigitsCore]
    by_cases h : n / 10 = 0
    · have hn : n < 10 := by omega
      have hmod : n % 10 = n := Nat.mod_eq_of_lt hn
      simp [h, Server.digitsVal, hmod, digitChar_val n hn]
    · simp only [h, if_false]
      have hlt : n / 10 < n := Nat.div_lt_self (by omega) (by norm_num)
      rw [toDigitsCore_append n, toDigitsCore_fuel (n / 10) n (n / 10 + 1)
          (by omega) (by omega)]
      rw [show Nat.toDigitsCore 10 (n / 10 + 1) (n / 10) [] =
          Nat.toDigits 10 (n / 10) from rfl]
      rw [digitsVal_append, ih (n / 10) hlt,
        digitChar_val (n % 10) (Nat.mod_lt n (by norm_num))]
      omega

theorem Nat_repr_inj {m n : ℕ} (h : Nat.repr m = Nat.repr n) : m = n := by
  have hd : Nat.toDigits 10 m = Nat.toDigits 10 n := by
    have h2 := congrArg String.data h
    simpa [Nat.repr, List.asString] using h2
  have h3 := congrArg Server.digitsVal hd
  rwa [digitsVal_toDigits, digitsVal_toDigits] at h3

theorem String_data_append (a b : String) : (a ++ b).data = a.data ++ b.data :=
  rfl

/-- Two node ids built from different counter values differ. -/
theorem nodeId_num_inj :
    ∀ (c1 c2 : Server.ClientType) (n1 n2 : ℕ),
      Server.nodeId c1 n1 = Server.nodeId c2 n2 → n1 = n2 := by
  intro c1 c2 n1 n2 h
  have h2 := congrArg String.data h
  cases c1 <;> cases c2 <;>
    simp only [Server.nodeId, Server.ClientType.value, String_data_append] at h2
  · have h3 : (Nat.repr n1).data = (Nat.repr n2).data := by simpa using h2
    have hd : Nat.toDigits 10 n1 = Nat.toDigits 10 n2 := h3
    have h4 := congrArg Server.digitsVal hd
    rwa [digitsVal_toDigits, digitsVal_toDigits] at h4
  · simp at h2
  · simp at h2
  · have h3 : (Nat.repr n1).data = (Nat.repr n2).data := by simpa using h2
    have hd : Nat.toDigits 10 n1 = Nat.toDigits 10 n2 := h3
    have h4 := congrArg Server.digitsVal hd
    rwa [digitsVal_toDigits, digitsVal_toDigits] at h4

/-- The ids a trace assigns are the rendered `(role, counter)` pairs. -/
theorem run_events_ids :
    ∀ (evs : List Server.RegEvent) (st : Server.RegState),
      (Server.run_events st evs).2 =
        (Server.assigned_pairs st.next_node_id evs).map
          (fun p => Server.nodeId p.1 p.2) := by
  intro evs
  induction evs with
  | nil => intro st; rfl
  | cons e evs ih =>
    intro st
    cases e with
    | register ct =>
      simp [Server.run_events, Server.register_client, Server.assigned_pairs, ih]
    | disconnect nid =>
      simp [Server.run_events, Server.remove_client, Server.assigned_pairs, ih]

/-- Counter values assigned along a trace never drop below the counter. -/
theorem assigned_pairs_le :
    ∀ (evs : List Server.RegEvent) (n : ℕ) (p : Server.ClientType × ℕ),
      p ∈ Server.assigned_pairs n evs → n ≤ p.2 := by
  intro evs
  induction evs with
  | nil => intro n p h; simp [Server.assigned_pairs] at h
  | cons e evs ih =>
    intro n p h
    cases e with
    | register ct =>
      simp only [Server.assigned_pairs, List.mem_cons] at h
      rcases h with rfl | h
      · exact le_refl n
      · exact le_trans (Nat.le_succ n) (ih (n + 1) p h)
    | disconnect nid => exact ih n p (by simpa [Server.assigned_pairs] using h)

/-- The numeric parts of the assigned node ids are strictly increasing. -/
theorem assigned_pairs_sorted :
    ∀ (evs : List Server.RegEvent) (n : ℕ),
      ((Server.assigned_pairs n evs).map Prod.snd).Pairwise (· < ·) := by
  intro evs
  induction evs with
  | nil => intro n; simp [Server.assigned_pairs]
  | cons e evs ih =>
    intro n
    cases e with
    | register ct =>
      simp only [Server.assigned_pairs, List.map_cons]
      refine List.Pairwise.cons ?_ (ih (n + 1))
      intro m hm
      obtain ⟨p, hp, rfl⟩ := List.mem_map.1 hm
      have := assigned_pairs_le evs (n + 1) p hp
      omega
    | disconnect nid => simpa [Server.assigned_pairs] using ih n

/-- No node id is assigned twice along any trace. -/
theorem run_ids_nodup (evs : List Server.RegEvent) (st : Server.RegState) :
    ((Server.run_events st evs).2).Nodup := by
  rw [run_events_ids]
  have hp : (Server.assigned_pairs st.next_node_id evs).Pairwise
      (fun p q => p.2 < q.2) :=
    List.pairwise_map.1 (assigned_pairs_sorted evs st.next_node_id)
  refine List.pairwise_map.2 (hp.imp ?_)
  intro a b hlt heq
  have := nodeId_num_inj a.1 b.1 a.2 b.2 heq
  omega

/-- C10: a first message that is not `REGISTER` closes the connection with
no reply; a valid `REGISTER` with a role string yields exactly one ACK
carrying the id `"<role>_<n>"` built from the current counter, which is
then incremented; across any server-lifetime trace of registrations and
disconnects (disconnects never touch the counter) the numeric parts of
assigned ids are strictly increasing and no id is ever assigned twice. -/
theorem C10_registration_protocol :
    (∀ (st : Server.RegState) (msg : Wire.Message),
        msg.type ≠ Wire.MessageType.REGISTER →
        Server.handle_first_message st msg =
          Server.FirstMessageOutcome.closedNoReply) ∧
    (∀ (st : Server.RegState) (msg : Wire.Message) (ct : Server.ClientType),
        msg.type = Wire.MessageType.REGISTER →
        Market.lookupA msg.data "client_type" =
          some (Wire.JsonValue.str ct.value) →
        Server.handle_first_message st msg =
          Server.FirstMessageOutcome.ackSent
            (Server.nodeId ct st.next_node_id)
            (Server.RegState.mk (st.next_node_id + 1)
              (st.clients ++ [(Server.nodeId ct st.next_node_id, ct)]))) ∧
    (∀ (st : Server.RegState) (evs : List Server.RegEvent),
        (Server.run_events st evs).2 =
          (Server.assigned_pairs st.next_node_id evs).map
            (fun p => Server.nodeId p.1 p.2) ∧
        ((Server.assigned_pairs st.next_node_id evs).map Prod.snd).Pairwise
          (· < ·) ∧
        ((Server.run_events st evs).2).Nodup) := by
  refine ⟨?_, ?_, ?_⟩
  · intro st msg h
    simp [Server.handle_first_message, h]
  · intro st msg ct ht hlk
    cases ct <;>
      simp [Server.handle_first_message, ht, hlk, Server.ClientType.ofValue,
        Server.ClientType.value, Server.register_client, Server.nodeId]
  · intro st evs
    exact ⟨run_events_ids evs st, assigned_pairs_sorted evs st.next_node_id,
      run_ids_nodup evs st⟩

/-- Witness for C10: a `LIST_ITEMS` first message is dropped without reply;
a buyer `REGISTER` gets the single ACK `"buyer_0"` from a fresh server; a
concrete register/disconnect trace reuses no id. -/
theorem C10_registration_protocol_witness :
    ((Wire.Message.mk .LIST_ITEMS [] "unregistered").type ≠
        Wire.MessageType.REGISTER ∧
      Server.handle_first_message (Server.RegState.mk 0 [])
          (Wire.Message.mk .LIST_ITEMS [] "unregistered") =
        Server.FirstMessageOutcome.closedNoReply) ∧
    (Server.handle_first_message (Server.RegState.mk 0 [])
        (Wire.Message.mk .REGISTER
          [("client_type", Wire.JsonValue.str "buyer")] "unregistered") =
      Server.FirstMessageOutcome.ackSent (Server.nodeId .BUYER 0)
        (Server.RegState.mk 1 [(Server.nodeId .BUYER 0, .BUYER)])) ∧
    ((Server.run_events (Server.RegState.mk 0 [])
        [.register .BUYER, .register .SELLER, .disconnect "buyer_0",
          .register .BUYER]).2).Nodup :=
  ⟨⟨by decide,
      C10_registration_protocol.1 (Server.RegState.mk 0 [])
        (Wire.Message.mk .LIST_ITEMS [] "unregistered") (by decide)⟩,
    C10_registration_protocol.2.1 (Server.RegState.mk 0 [])
      (Wire.Message.mk .REGISTER
        [("client_type", Wire.JsonValue.str "buyer")] "unregistered")
      .BUYER rfl rfl,
    (C10_registration_protocol.2.2 (Server.RegState.mk 0 [])
      [.register .BUYER, .register .SELLER, .disconnect "buyer_0",
        .register .BUYER]).2.2⟩
